import Mathlib

set_option linter.unusedVariables false

/-!
Verification of the session-scoped process bridge of the
electron-react-boilerplate fork (src/main/main.ts, src/renderer/App.tsx).

The main-process IPC handlers (gemini-command, sessions:create,
sessions:load-all, sessions:load-one, sessions:save, sessions:delete) and
the renderer's gemini-response listener are embedded as pure functions
over an explicit filesystem state.  File contents that `JSON.parse` would
accept are modelled by `FileContent.valid` carrying the decoded session
record; contents on which `JSON.parse` throws are `FileContent.malformed`.
-/

/-- Message type tags (App.tsx, interface Message: command | response | error). -/
inductive MsgType
  | command
  | response
  | error
  deriving DecidableEq, Repr

/-- A transcript message (App.tsx, interface Message).  `content` is
`Option String` because at runtime the listener builds a message whose
content field is `response.content`, which is the JavaScript value
`undefined` (modelled as `none`) when the incoming event has no content
field. -/
structure Message where
  type : MsgType
  content : Option String
  deriving DecidableEq, Repr

/-- A session record (App.tsx, interface Session; also the object written
by the sessions:create handler in main.ts). -/
structure Session where
  id : String
  name : String
  history : List Message
  deriving DecidableEq, Repr

/-- Content of one stored file: either text that JSON.parse decodes to a
session record, or text on which JSON.parse throws. -/
inductive FileContent
  | valid (s : Session)
  | malformed (raw : String)
  deriving DecidableEq, Repr

/-- The durable state the handlers touch: the files of the sessions
directory (filename to content, main.ts `sessionsPath`) and the set of
existing context working directories (main.ts `contexts/<sessionId>`). -/
structure StoreState where
  files : List (String × FileContent)
  contexts : List String
  deriving DecidableEq, Repr

def initState : StoreState := { files := [], contexts := [] }

/-- Lookup of a file by exact name (first match). -/
def lookupFile : List (String × FileContent) → String → Option FileContent
  | [], _ => none
  | (k, v) :: rest, key => if k = key then some v else lookupFile rest key

/-- `fs.writeFileSync`: replace the file if present, create it otherwise. -/
def setFile : List (String × FileContent) → String → FileContent → List (String × FileContent)
  | [], key, v => [(key, v)]
  | (k, w) :: rest, key, v =>
      if k = key then (key, v) :: rest else (k, w) :: setFile rest key v

/-- `fs.unlinkSync`: remove the file with the given name. -/
def removeFile : List (String × FileContent) → String → List (String × FileContent)
  | [], _ => []
  | (k, v) :: rest, key =>
      if k = key then removeFile rest key else (k, v) :: removeFile rest key

/-- `JSON.parse` on a stored record: ok on valid content, throws on
malformed content (main.ts uses it with no try/catch). -/
def parseRecord : FileContent → Except String Session
  | .valid s => .ok s
  | .malformed raw => .error ("SyntaxError: Unexpected token in JSON: " ++ raw)

/-- The identifier allocated by sessions:create (main.ts line 146):
the template literal with the current `Date.now()` millisecond. -/
def sessionIdOf (now : Nat) : String := "session-" ++ toString now

/-- sessions:create handler (main.ts lines 145-155): build a fresh record
with empty history keyed by the wall-clock millisecond, write it, return
it.  The display name uses the creation time (toLocaleString is modelled
by toString). -/
def sessionsCreate (st : StoreState) (now : Nat) : Session × StoreState :=
  let sessionData : Session :=
    { id := sessionIdOf now
      name := "Nueva Sesion - " ++ toString now
      history := [] }
  (sessionData,
    { st with files := setFile st.files (sessionData.id ++ ".json") (.valid sessionData) })

/-- Filename filter used by sessions:load-all (main.ts line 160,
`file.endsWith('.json')`), as a suffix test on the character list. -/
def endsWithJson (name : String) : Bool := ".json".data.isSuffixOf name.data

/-- Left-to-right JSON.parse over the filtered files: the first throwing
parse aborts the whole enumeration (main.ts has no try/catch around the
`.map`). -/
def parseAll : List (String × FileContent) → Except String (List Session)
  | [] => .ok []
  | kv :: rest =>
      match parseRecord kv.2 with
      | .error e => .error e
      | .ok s =>
          match parseAll rest with
          | .error e => .error e
          | .ok l => .ok (s :: l)

/-- sessions:load-all handler (main.ts lines 157-167): enumerate the
.json files and JSON.parse each; the parse of a malformed record throws
out of the whole handler. -/
def sessionsLoadAll (st : StoreState) : Except String (List Session) :=
  parseAll (st.files.filter fun kv => endsWithJson kv.1)

/-- sessions:load-one handler (main.ts lines 168-175): read and parse the
record if the file exists, otherwise return null (`ok none`). -/
def sessionsLoadOne (st : StoreState) (sessionId : String) : Except String (Option Session) :=
  match lookupFile st.files (sessionId ++ ".json") with
  | some content => (parseRecord content).map some
  | none => .ok none

/-- sessions:save handler (main.ts lines 177-180): whole-record overwrite
of `<id>.json`. -/
def sessionsSave (st : StoreState) (sessionData : Session) : StoreState :=
  { st with files := setFile st.files (sessionData.id ++ ".json") (.valid sessionData) }

/-- sessions:delete handler (main.ts lines 182-189): unlink the record if
the file exists and report whether removal occurred. -/
def sessionsDelete (st : StoreState) (sessionId : String) : Bool × StoreState :=
  match lookupFile st.files (sessionId ++ ".json") with
  | some _ => (true, { st with files := removeFile st.files (sessionId ++ ".json") })
  | none => (false, st)

/-- Whether a durable record for this id exists. -/
def hasRecord (st : StoreState) (sessionId : String) : Bool :=
  (lookupFile st.files (sessionId ++ ".json")).isSome

/-! ## Process bridge (gemini-command handler, main.ts lines 36-111) -/

/-- Asynchronous occurrences on the spawned child process, in the order
the event loop delivers them: stdout chunks, stderr chunks, the single
close with the exit code, a spawn-failure error, a stdin write error. -/
inductive ProcEvent
  | stdout (chunk : String)
  | stderr (chunk : String)
  | closed (code : Int)
  | spawnErr (msg : String)
  | stdinErr (msg : String)
  deriving DecidableEq, Repr

/-- The payload sent on the `gemini-response` channel.  Exactly the
object literals of main.ts: `type` plus `content` for data/error, `type`
plus `code` for close.  Note that none of the three literals contains a
session identifier. -/
inductive GeminiResponse
  | data (content : String)
  | error (content : String)
  | close (code : Int)
  deriving DecidableEq, Repr

/-- Hard-coded npx location (main.ts line 45). -/
def npxPath : String := "C:\\Program Files\\nodejs\\npx.cmd"

/-- How each child-process occurrence is relayed to the renderer
(main.ts lines 63-94): stdout chunk to a data event, stderr chunk to an
error event, close to a close event with the code, process error and
stdin error to error events with the diagnostic text. -/
def relayEvent : ProcEvent → GeminiResponse
  | .stdout chunk => .data chunk
  | .stderr chunk => .error chunk
  | .closed code => .close code
  | .spawnErr msg => .error ("Error al iniciar el proceso: " ++ msg)
  | .stdinErr msg => .error ("Error al enviar el comando: " ++ msg)

/-- gemini-command handler (main.ts lines 36-111) for one invocation.
First the context directory for the session is created if missing
(lines 39-42).  If npx.cmd does not exist the handler sends a single
error event and returns (lines 48-55); otherwise the process is spawned
and every child-process occurrence in `trace` is relayed through the
listeners.  The result is the new durable state and the ordered list of
`gemini-response` payloads sent to the renderer. -/
def geminiCommandRun (st : StoreState) (npxExists : Bool) (sessionId command : String)
    (trace : List ProcEvent) : StoreState × List GeminiResponse :=
  let st1 :=
    if sessionId ∈ st.contexts then st else { st with contexts := sessionId :: st.contexts }
  if npxExists then (st1, trace.map relayEvent)
  else (st1, [.error ("No se pudo encontrar npx en la ruta: " ++ npxPath)])

/-- Context-directory creation alone (main.ts lines 39-42), for stating
frame properties about `contexts/<sessionId>`. -/
def ensureContext (st : StoreState) (sessionId : String) : StoreState :=
  if sessionId ∈ st.contexts then st else { st with contexts := sessionId :: st.contexts }

/-! ## Renderer listener (App.tsx lines 54-77) -/

/-- The message the gemini-response listener builds from an incoming
event (App.tsx lines 60-63): type is `response` exactly when the event
type is the string data, otherwise `error`; content is `response.content`,
which is absent (undefined, here `none`) on a close event. -/
def translateResponse : GeminiResponse → Message
  | .data content => { type := .response, content := some content }
  | .error content => { type := .error, content := some content }
  | .close _ => { type := .error, content := none }

/-- One delivery of a gemini-response event to the renderer (App.tsx
lines 54-71): if no session is active nothing happens; otherwise the
translated message is appended to the ACTIVE session's history and that
updated session is sent to sessions:save.  Returns the new active
session and the list of save requests issued. -/
def onGeminiResponse (active : Option Session) (resp : GeminiResponse) :
    Option Session × List Session :=
  match active with
  | none => (none, [])
  | some prev =>
      let newMessage := translateResponse resp
      let updatedSession := { prev with history := prev.history ++ [newMessage] }
      (some updatedSession, [updatedSession])

/-- Deliver a list of gemini-response events in order, tracking the
active session. -/
def deliverAll (active : Option Session) (events : List GeminiResponse) : Option Session :=
  events.foldl (fun acc e => (onGeminiResponse acc e).1) active

/-! ## Event classifiers -/

def isClose : GeminiResponse → Bool
  | .close _ => true
  | _ => false

def isErrorEvt : GeminiResponse → Bool
  | .error _ => true
  | _ => false

def isIOEvent : ProcEvent → Bool
  | .stdout _ => true
  | .stderr _ => true
  | _ => false

/-! ## Basic lemmas about the file map -/

theorem lookupFile_setFile_self (l : List (String × FileContent)) (key : String)
    (v : FileContent) : lookupFile (setFile l key v) key = some v := by
  induction l with
  | nil => simp [setFile, lookupFile]
  | cons hd tl ih =>
      obtain ⟨k, w⟩ := hd
      by_cases hk : k = key
      · simp [setFile, hk, lookupFile]
      · simp [setFile, hk, lookupFile, ih]

theorem lookupFile_removeFile_self (l : List (String × FileContent)) (key : String) :
    lookupFile (removeFile l key) key = none := by
  induction l with
  | nil => simp [removeFile, lookupFile]
  | cons hd tl ih =>
      obtain ⟨k, w⟩ := hd
      by_cases hk : k = key
      · simp [removeFile, hk, ih]
      · simp [removeFile, hk, lookupFile, ih]

theorem lookupFile_removeFile_ne (l : List (String × FileContent)) (k key : String)
    (h : k ≠ key) : lookupFile (removeFile l key) k = lookupFile l k := by
  induction l with
  | nil => simp [removeFile]
  | cons hd tl ih =>
      obtain ⟨k', w⟩ := hd
      by_cases hk : k' = key
      · subst hk
        simp [removeFile, lookupFile, (Ne.symm h), ih]
      · by_cases hk2 : k' = k
        · subst hk2
          simp [removeFile, hk, lookupFile]
        · simp [removeFile, hk, lookupFile, hk2, ih]

/-! ## Injectivity of the decimal identifier allocated by sessions:create -/

/-- Numeric value of a decimal digit character. -/
def charVal (c : Char) : Nat := c.toNat - 48

/-- Fold a most-significant-first digit string back into a number. -/
def pushDigits (a : Nat) (l : List Char) : Nat :=
  l.foldl (fun x c => 10 * x + charVal c) a

theorem charVal_digitChar (d : Nat) (h : d < 10) :
    charVal (Nat.digitChar d) = d := by
  interval_cases d <;> decide

theorem toDigitsCore_append (n : Nat) :
    ∀ fuel acc, n < fuel →
      Nat.toDigitsCore 10 fuel n acc = Nat.toDigitsCore 10 (n + 1) n [] ++ acc := by
  induction n using Nat.strong_induction_on with
  | _ n ih =>
    intro fuel acc hfuel
    cases fuel with
    | zero => omega
    | succ f =>
      by_cases h10 : n / 10 = 0
      · simp [Nat.toDigitsCore, h10]
      · have hlt : n / 10 < n := Nat.div_lt_self (by omega) (by norm_num)
        rw [show Nat.toDigitsCore 10 (f + 1) n acc
              = Nat.toDigitsCore 10 f (n / 10) (Nat.digitChar (n % 10) :: acc) from by
            simp [Nat.toDigitsCore, h10]]
        rw [show Nat.toDigitsCore 10 (n + 1) n []
              = Nat.toDigitsCore 10 n (n / 10) [Nat.digitChar (n % 10)] from by
            simp [Nat.toDigitsCore, h10]]
        rw [ih (n / 10) hlt f (Nat.digitChar (n % 10) :: acc) (by omega),
            ih (n / 10) hlt n [Nat.digitChar (n % 10)] (by omega)]
        simp

theorem pushDigits_toDigits (n : Nat) :
    pushDigits 0 (Nat.toDigits 10 n) = n := by
  induction n using Nat.strong_induction_on with
  | _ n ih =>
    by_cases h10 : n / 10 = 0
    · have hn : n < 10 := by omega
      have hmod : n % 10 = n := Nat.mod_eq_of_lt hn
      simp [Nat.toDigits, Nat.toDigitsCore, h10, pushDigits, hmod, charVal_digitChar n hn]
    · have hlt : n / 10 < n := Nat.div_lt_self (by omega) (by norm_num)
      have hrw : Nat.toDigits 10 n
          = Nat.toDigits 10 (n / 10) ++ [Nat.digitChar (n % 10)] := by
        show Nat.toDigitsCore 10 (n + 1) n [] = _
        rw [show Nat.toDigitsCore 10 (n + 1) n []
              = Nat.toDigitsCore 10 n (n / 10) [Nat.digitChar (n % 10)] from by
            simp [Nat.toDigitsCore, h10]]
        rw [toDigitsCore_append (n / 10) n [Nat.digitChar (n % 10)] (by omega)]
        rfl
      rw [hrw]
      unfold pushDigits
      rw [List.foldl_append]
      have hih := ih (n / 10) hlt
      unfold pushDigits at hih
      rw [hih]
      simp only [List.foldl]
      rw [charVal_digitChar (n % 10) (Nat.mod_lt n (by norm_num))]
      omega

theorem natRepr_injective (m n : Nat) (h : Nat.repr m = Nat.repr n) : m = n := by
  have hd : Nat.toDigits 10 m = Nat.toDigits 10 n := by
    have h2 := congrArg String.data h
    simp only [Nat.repr] at h2
    exact h2
  have h3 := congrArg (pushDigits 0) hd
  rw [pushDigits_toDigits, pushDigits_toDigits] at h3
  exact h3

theorem sessionIdOf_injective (m n : Nat) (h : sessionIdOf m = sessionIdOf n) : m = n := by
  unfold sessionIdOf at h
  have hd := congrArg String.data h
  simp only [String.data_append] at hd
  have hc := List.append_cancel_left hd
  exact natRepr_injective m n (String.ext hc)

/-! ## Further store lemmas -/

theorem append_suffix_cancel (a b s : String) (h : a ++ s = b ++ s) : a = b := by
  have hd := congrArg String.data h
  simp only [String.data_append] at hd
  exact String.ext (List.append_cancel_right hd)

theorem append_json_ne (a b : String) (h : a ≠ b) : a ++ ".json" ≠ b ++ ".json" :=
  fun he => h (append_suffix_cancel a b ".json" he)

theorem sessionsDelete_contexts (st : StoreState) (sessionId : String) :
    ((sessionsDelete st sessionId).2).contexts = st.contexts := by
  unfold sessionsDelete
  cases lookupFile st.files (sessionId ++ ".json") <;> rfl

theorem mem_ensureContext (st : StoreState) (sessionId : String) :
    sessionId ∈ (ensureContext st sessionId).contexts := by
  unfold ensureContext
  by_cases h : sessionId ∈ st.contexts <;> simp [h]

/-! ## Claim theorems for the session store -/

/-- Claim C6: saving a session and then loading it back by its id yields
exactly the saved state, regardless of what record previously existed
under that id. -/
theorem save_then_loadOne_roundtrip (st : StoreState) (s : Session) :
    sessionsLoadOne (sessionsSave st s) s.id = Except.ok (some s) := by
  unfold sessionsLoadOne sessionsSave
  simp only [lookupFile_setFile_self]
  rfl

/-- Claim C7: a session returned by sessions:create is immediately
loadable under the returned id, and the loaded record has that id and an
empty history. -/
theorem create_then_loadOne (st : StoreState) (now : Nat) :
    ∃ r : Session,
      sessionsLoadOne (sessionsCreate st now).2 ((sessionsCreate st now).1).id
          = Except.ok (some r)
      ∧ r.id = ((sessionsCreate st now).1).id
      ∧ r.history = [] := by
  refine ⟨(sessionsCreate st now).1, ?_, rfl, rfl⟩
  unfold sessionsLoadOne sessionsCreate
  simp only [lookupFile_setFile_self]
  rfl

/-- Claim C8: sessions:delete returns true exactly when a record for the
id existed (so deleting an absent id is a normal call returning false), a
load after the delete reports not-found, and a second delete of the same
id returns false. -/
theorem delete_semantics (st : StoreState) (sessionId : String) :
    (sessionsDelete st sessionId).1 = hasRecord st sessionId
    ∧ sessionsLoadOne (sessionsDelete st sessionId).2 sessionId = Except.ok none
    ∧ (sessionsDelete (sessionsDelete st sessionId).2 sessionId).1 = false := by
  cases hlook : lookupFile st.files (sessionId ++ ".json") with
  | none =>
      refine ⟨?_, ?_, ?_⟩ <;>
        simp [sessionsDelete, hlook, hasRecord, sessionsLoadOne]
  | some c =>
      refine ⟨?_, ?_, ?_⟩ <;>
        simp [sessionsDelete, hlook, hasRecord, sessionsLoadOne,
          lookupFile_removeFile_self]

/-- Claim C9 (amended): the identifiers allocated by two sessions:create
calls are equal exactly when the two calls observe the same Date.now()
millisecond — the identifier is a function of wall-clock time alone, so
same-millisecond creations collide and distinct-millisecond creations get
distinct identifiers. -/
theorem create_id_collision_iff (st1 st2 : StoreState) (now1 now2 : Nat) :
    ((sessionsCreate st1 now1).1).id = ((sessionsCreate st2 now2).1).id ↔ now1 = now2 := by
  constructor
  · intro h
    exact sessionIdOf_injective now1 now2 h
  · intro h
    subst h
    rfl

/-- Claim C9 counterexample: two sessions:create calls in the same
millisecond (the second performed on the store produced by the first)
allocate the SAME identifier, refuting the distinctness claim. -/
theorem create_rapid_collision :
    ((sessionsCreate initState 1000).1).id
        = ((sessionsCreate (sessionsCreate initState 1000).2 1000).1).id
    ∧ ((sessionsCreate initState 1000).1).id = "session-1000" := by
  exact ⟨rfl, by decide⟩

/-- Claim C10: sessions:delete touches at most the record keyed by the
given id — every record of a different session id is unchanged — and it
never removes any context working directory; in particular the context
directory created for the deleted session survives the deletion. -/
theorem delete_frame (st : StoreState) (sessionId k : String) (hk : k ≠ sessionId) :
    lookupFile ((sessionsDelete st sessionId).2).files (k ++ ".json")
        = lookupFile st.files (k ++ ".json")
    ∧ ((sessionsDelete st sessionId).2).contexts = st.contexts
    ∧ sessionId ∈ ((sessionsDelete (ensureContext st sessionId) sessionId).2).contexts := by
  refine ⟨?_, sessionsDelete_contexts st sessionId, ?_⟩
  · cases hlook : lookupFile st.files (sessionId ++ ".json") with
    | none => simp [sessionsDelete, hlook]
    | some c =>
        simp only [sessionsDelete, hlook]
        exact lookupFile_removeFile_ne st.files (k ++ ".json") (sessionId ++ ".json")
          (append_json_ne k sessionId hk)
  · rw [sessionsDelete_contexts]
    exact mem_ensureContext st sessionId

/-- Witness for the delete frame property at a concrete store. -/
theorem delete_frame_witness :
    lookupFile ((sessionsDelete
          { files := [("a.json", FileContent.valid { id := "a", name := "A", history := [] })],
            contexts := ["a"] } "a").2).files ("b" ++ ".json")
        = lookupFile
            ({ files := [("a.json", FileContent.valid { id := "a", name := "A", history := [] })],
               contexts := ["a"] } : StoreState).files ("b" ++ ".json")
    ∧ ((sessionsDelete
          { files := [("a.json", FileContent.valid { id := "a", name := "A", history := [] })],
            contexts := ["a"] } "a").2).contexts
        = ({ files := [("a.json", FileContent.valid { id := "a", name := "A", history := [] })],
             contexts := ["a"] } : StoreState).contexts
    ∧ "a" ∈ ((sessionsDelete (ensureContext
          { files := [("a.json", FileContent.valid { id := "a", name := "A", history := [] })],
            contexts := ["a"] } "a") "a").2).contexts :=
  delete_frame
    { files := [("a.json", FileContent.valid { id := "a", name := "A", history := [] })],
      contexts := ["a"] } "a" "b" (by decide)

/-! ## Claim theorems for the bridge and the renderer listener -/

theorem isClose_relayEvent_of_io (e : ProcEvent) (he : isIOEvent e = true) :
    isClose (relayEvent e) = false := by
  cases e <;> simp_all [isIOEvent, relayEvent, isClose]

theorem parseAll_error (l : List (String × FileContent))
    (h : ∃ kv ∈ l, ∃ raw, kv.2 = FileContent.malformed raw) :
    ∃ e, parseAll l = Except.error e := by
  induction l with
  | nil => simp at h
  | cons a tl ih =>
      match hpa : parseRecord a.2 with
      | .error e =>
          exact ⟨e, by simp [parseAll, hpa]⟩
      | .ok s =>
          have htl : ∃ kv ∈ tl, ∃ raw, kv.2 = FileContent.malformed raw := by
            obtain ⟨kv, hkv, raw, hraw⟩ := h
            rcases List.mem_cons.mp hkv with hkva | hkvtl
            · subst hkva
              rw [hraw] at hpa
              simp [parseRecord] at hpa
            · exact ⟨kv, hkvtl, raw, hraw⟩
          obtain ⟨e, he⟩ := ih htl
          refine ⟨e, ?_⟩
          simp [parseAll, hpa, he]

/-- A store with one well-formed record and one malformed record, for the
load-all counterexample. -/
def badStore : StoreState :=
  { files :=
      [("session-1.json", FileContent.valid { id := "session-1", name := "A", history := [] }),
       ("corrupt.json", FileContent.malformed "x")]
    contexts := [] }

/-- Claim C3 counterexample: with one malformed record present,
sessions:load-all does NOT return the remaining well-formed record — the
uncaught JSON.parse exception makes the whole operation fail. -/
theorem loadAll_fails_on_malformed :
    sessionsLoadAll badStore
      = Except.error ("SyntaxError: Unexpected token in JSON: " ++ "x") := by
  rfl

/-- Claim C3 (amended): whenever any stored .json record is malformed,
sessions:load-all aborts as a whole with the parse error instead of
returning the well-formed records. -/
theorem loadAll_aborts_on_malformed (st : StoreState) (fname raw : String)
    (hmem : (fname, FileContent.malformed raw) ∈ st.files)
    (hjson : endsWithJson fname = true) :
    ∃ e, sessionsLoadAll st = Except.error e := by
  unfold sessionsLoadAll
  apply parseAll_error
  refine ⟨(fname, FileContent.malformed raw), ?_, raw, rfl⟩
  exact List.mem_filter.mpr ⟨hmem, hjson⟩

/-- Witness for the amended load-all claim at the concrete bad store. -/
theorem loadAll_aborts_on_malformed_witness :
    ∃ e, sessionsLoadAll badStore = Except.error e :=
  loadAll_aborts_on_malformed badStore "corrupt.json" "x" (by decide) (by decide)

/-- Claim C4: an invocation whose process performs only stream output and
then exits with status 0 yields exactly one close event, with code 0; when
npx.cmd does not exist the handler emits one error event naming the path,
no close event, and returns normally (the value below IS its normal
return); a spawn failure likewise yields an error event and no close
event. -/
theorem close_event_semantics (st : StoreState) (sid cmd msg : String)
    (chunks : List ProcEvent) (h : ∀ e ∈ chunks, isIOEvent e = true) :
    ((geminiCommandRun st true sid cmd (chunks ++ [ProcEvent.closed 0])).2).filter isClose
        = [GeminiResponse.close 0]
    ∧ (geminiCommandRun st false sid cmd []).2
        = [GeminiResponse.error ("No se pudo encontrar npx en la ruta: " ++ npxPath)]
    ∧ ((geminiCommandRun st false sid cmd []).2).filter isClose = []
    ∧ (geminiCommandRun st true sid cmd [ProcEvent.spawnErr msg]).2
        = [GeminiResponse.error ("Error al iniciar el proceso: " ++ msg)]
    ∧ ((geminiCommandRun st true sid cmd [ProcEvent.spawnErr msg]).2).filter isClose = [] := by
  refine ⟨?_, rfl, rfl, rfl, rfl⟩
  show ((chunks ++ [ProcEvent.closed 0]).map relayEvent).filter isClose = [GeminiResponse.close 0]
  rw [List.map_append, List.filter_append]
  have hnil : (chunks.map relayEvent).filter isClose = [] := by
    rw [List.filter_eq_nil_iff]
    intro a ha
    obtain ⟨e, he, rfl⟩ := List.mem_map.mp ha
    simp [isClose_relayEvent_of_io e (h e he)]
  rw [hnil]
  rfl

/-- Witness for the close-event claim at a concrete invocation. -/
theorem close_event_semantics_witness :
    ((geminiCommandRun initState true "S1" "hola"
          ([ProcEvent.stdout "A", ProcEvent.stderr "B"] ++ [ProcEvent.closed 0])).2).filter isClose
        = [GeminiResponse.close 0]
    ∧ (geminiCommandRun initState false "S1" "hola" []).2
        = [GeminiResponse.error ("No se pudo encontrar npx en la ruta: " ++ npxPath)]
    ∧ ((geminiCommandRun initState false "S1" "hola" []).2).filter isClose = []
    ∧ (geminiCommandRun initState true "S1" "hola" [ProcEvent.spawnErr "ENOENT"]).2
        = [GeminiResponse.error ("Error al iniciar el proceso: " ++ "ENOENT")]
    ∧ ((geminiCommandRun initState true "S1" "hola" [ProcEvent.spawnErr "ENOENT"]).2).filter isClose
        = [] :=
  close_event_semantics initState "S1" "hola" "ENOENT"
    [ProcEvent.stdout "A", ProcEvent.stderr "B"] (by decide)

/-- A second session S2 with empty history, used to exercise the
two-session scenario. -/
def sessionS2 : Session := { id := "S2", name := "Sesion 2", history := [] }

/-- A session S1 with empty history. -/
def sessionS1 : Session := { id := "S1", name := "Sesion 1", history := [] }

/-- Claim C1 (refuted by the code): the renderer appends Bridge output to
whichever session is currently active, not to the originating session.
Here the invocation spawned for session S1 emits one stdout chunk while
S2 is the active session, and the resulting response Message lands in
S2's history even though S1 is a different session. -/
theorem cross_session_leak :
    deliverAll (some sessionS2)
        ((geminiCommandRun initState true "S1" "hola" [ProcEvent.stdout "world"]).2)
      = some { id := "S2", name := "Sesion 2",
               history := [{ type := MsgType.response, content := some "world" }] }
    ∧ ("S1" : String) ≠ "S2" := by
  exact ⟨rfl, by decide⟩

/-- Claim C2 (refuted by the code): the gemini-response payloads contain
only type and content (or code) and no session identifier — the event
streams of invocations run for the distinct sessions S1 and S2 are
literally identical, so no consumer can route an event to its session
from the event alone. -/
theorem events_carry_no_session_tag :
    (geminiCommandRun initState true "S1" "hola"
        [ProcEvent.stdout "hello", ProcEvent.closed 0]).2
      = (geminiCommandRun initState true "S2" "hola"
          [ProcEvent.stdout "hello", ProcEvent.closed 0]).2
    ∧ (geminiCommandRun initState true "S1" "hola"
        [ProcEvent.stdout "hello", ProcEvent.closed 0]).2
      = [GeminiResponse.data "hello", GeminiResponse.close 0]
    ∧ ("S1" : String) ≠ "S2" := by
  exact ⟨rfl, rfl, by decide⟩

/-- Claim C5 (refuted by the code): on a close event the listener's
translation (type is data gives response, anything else gives error)
produces an error Message whose content is the absent field
response.content (undefined, modelled as none), appends it to the active
session's history and issues a sessions:save of the grown session —
rather than appending nothing. -/
theorem close_event_appends_message :
    onGeminiResponse (some sessionS1) (GeminiResponse.close 0)
      = (some { id := "S1", name := "Sesion 1",
                history := [{ type := MsgType.error, content := none }] },
         [{ id := "S1", name := "Sesion 1",
            history := [{ type := MsgType.error, content := none }] }]) := by
  rfl
